import Mathlib

/-!
Verification development for the request-dispatch core of the Rocket web
framework (`core/lib/src/rocket.rs`).

The Rust source is shallowly embedded: stateful code (interior-mutable
cookie jars, the deferred build queue) becomes explicit state passing,
fallible code (paths that `panic!`/`expect` in Rust) returns `Option`,
and the `async` structure is erased (each `await` of a pure computation
is just function application).  Handler, catcher and lifecycle-hook
capabilities are modelled as Lean functions, matching the type-erased
`dyn` capability objects of the source.

Parts of the repository that `rocket.rs` calls into but whose sources are
not part of this repository snapshot (the router's matching logic, the
`FormItems` form parser, `Method::from_str`, `catcher::defaults::get`,
the `Fairings` collection, and the `Response`/`Cookies` mutators) are
modelled from the spec; each such definition is marked
`Modelled from the spec:` in its doc comment.
-/

namespace RocketCore

/-- HTTP methods (`rocket::http::Method`). -/
inductive Method where
  | get
  | put
  | post
  | delete
  | options
  | head
  | trace
  | connect
  | patch
deriving DecidableEq

/-- A status code (`rocket::http::Status`); only the numeric code matters here. -/
structure Status where
  code : Nat
deriving DecidableEq

/-- `Status::NotFound` (404). -/
def Status.notFound : Status := ⟨404⟩

/-- `Status::InternalServerError` (500). -/
def Status.internalServerError : Status := ⟨500⟩

/-- `Status::BadRequest` (400). -/
def Status.badRequest : Status := ⟨400⟩

/-- A response header. -/
structure Header where
  name : String
  value : String
deriving DecidableEq

/-- ASCII lowercasing, character by character (the standard library's
`String.toLower` is extensionally the same but is defined by well-founded
recursion on byte positions, which blocks definitional evaluation). -/
def lowerString (s : String) : String := ⟨s.data.map Char.toLower⟩

/-- `String.take`, via the character list. -/
def strTake (s : String) (n : Nat) : String := ⟨s.data.take n⟩

/-- Splitting on a separator character, accumulator-based. -/
def splitOnCharAux (sep : Char) : List Char → List Char → List (List Char)
  | [], acc => [acc.reverse]
  | c :: cs, acc =>
    if c = sep then acc.reverse :: splitOnCharAux sep cs []
    else splitOnCharAux sep cs (c :: acc)

/-- `String.splitOn` for a single-character separator. -/
def splitOnChar (sep : Char) (s : String) : List String :=
  (splitOnCharAux sep s.data []).map (fun l => ⟨l⟩)

/-- Split a form item at its first `=` into key and value; `none` when the
item has no `=`. -/
def splitKVAux (acc : List Char) : List Char → Option (String × String)
  | [] => none
  | c :: cs => if c = '=' then some (⟨acc.reverse⟩, ⟨cs⟩) else splitKVAux (c :: acc) cs

/-- Modelled from the spec: header names compare case-insensitively
(Rocket's header map is uncased). -/
def headerNameEq (a b : String) : Bool := lowerString a == lowerString b

/-- A cookie: name and value. -/
structure Cookie where
  name : String
  value : String
deriving DecidableEq

/-- Modelled from the spec: the request's cookie jar, with a base state and a
delta of additions made during the current processing path (removals are not
needed by any claim and are not modelled). -/
structure Cookies where
  base : List Cookie
  delta : List Cookie
deriving DecidableEq

/-- Modelled from the spec: `Cookies::reset_delta` discards all pending
mutations, returning the jar to its base state. -/
def Cookies.reset_delta (c : Cookies) : Cookies := { c with delta := [] }

/-- Modelled from the spec: serializing a delta cookie as a `Set-Cookie`
response header (the exact serialization is irrelevant to the claims). -/
def cookieHeader (c : Cookie) : Header := ⟨"Set-Cookie", c.name ++ "=" ++ c.value⟩

/-- A response body: sized (known length) or chunked/streamed
(`rocket::response::Body`). -/
inductive Body where
  | sized (content : String) (len : Nat)
  | chunked (content : String) (chunkSize : Nat)
deriving DecidableEq

/-- A response: status, ordered header list, optional body. -/
structure Response where
  status : Status
  headers : List Header
  body : Option Body
deriving DecidableEq

/-- Modelled from the spec: `Response::strip_body` removes the body, leaving
status and headers untouched. -/
def Response.strip_body (r : Response) : Response := { r with body := none }

/-- Modelled from the spec: `Response::set_header` replaces any header of the
same (uncased) name, then adds the new one. -/
def Response.set_header (r : Response) (h : Header) : Response :=
  { r with headers := (r.headers.filter (fun h2 => !(headerNameEq h2.name h.name))) ++ [h] }

/-- Modelled from the spec: `Response::adjoin_header` appends a header without
replacing existing ones of the same name. -/
def Response.adjoin_header (r : Response) (h : Header) : Response :=
  { r with headers := r.headers ++ [h] }

/-- Whether the header list contains a header of the given (uncased) name. -/
def containsHeader (hs : List Header) (name : String) : Bool :=
  hs.any (fun h => headerNameEq h.name name)

/-- The request view used by the dispatch engine: method, URI path, whether
the declared content type is a form, and the cookie jar.  Per the spec, the
cookie delta (and, crate-internally, the method) are the only parts mutated
during dispatch, so the remaining fields of the source's `Request` (headers,
remote address, matched-route slot) are not modelled. -/
structure Request where
  method : Method
  uri : String
  contentTypeIsForm : Bool
  cookies : Cookies
deriving DecidableEq

/-- The cookie-delta reset performed at the top of `Manifest::handle_error`
(`req.cookies().reset_delta()`), as a request transformer. -/
def resetReq (req : Request) : Request := { req with cookies := req.cookies.reset_delta }

/-- The request body: an eagerly-buffered peek prefix plus the rest of the
lazily-consumed stream.  The peek is modelled as a `String` of characters
standing for the buffered bytes (the claims only involve ASCII data, where
bytes and characters coincide). -/
structure Data where
  peek : String
  rest : String
deriving DecidableEq

/-- `rocket::outcome::Outcome` as produced by handlers: success with a
response, failure with a status, or forward returning the body. -/
inductive Outcome where
  | success (response : Response)
  | failure (status : Status)
  | forward (data : Data)

/-- A handler capability: receives the request (with the current cookie jar)
and the body; returns the cookie jar it left behind (handlers may add cookies
through the jar's interior mutability) and its outcome. -/
abbrev Handler := Request → Data → Cookies × Outcome

/-- A mounted route: method, mount base, resolved URI, rank, handler. -/
structure Route where
  method : Method
  base : String
  uri : String
  rank : Int
  handler : Handler

/-- Stable insertion into a rank-sorted route list (ties keep earlier
elements first). -/
def insertByRank (r : Route) : List Route → List Route
  | [] => [r]
  | x :: xs => if x.rank < r.rank then x :: insertByRank r xs else r :: x :: xs

/-- Stable sort of routes by ascending rank. -/
def sortByRank : List Route → List Route
  | [] => []
  | x :: xs => insertByRank x (sortByRank xs)

/-- Modelled from the spec: `Router::route` returns the routes matching the
request's (method, path), ordered by rank (lower rank first, ties broken by
mount order).  Dynamic path segments are not modelled; matching is on the
resolved path.  (`router.rs` is not part of this snapshot; no claim depends
on the matching itself, only on the loop over whatever candidate list the
router returns.) -/
def Router.route (router : List Route) (req : Request) : List Route :=
  sortByRank (router.filter (fun r => r.method == req.method && r.uri == req.uri))

/-- Modelled from the spec: `FormItems` iteration over a url-encoded form
string: `&`-separated items, each split at its first `=` into key and value
(items without an `=` yield nothing). -/
def formItems (s : String) : List (String × String) :=
  (splitOnChar '&' s).filterMap (fun item => splitKVAux [] item.data)

/-- Modelled from the spec: `Method::from_str`, which matches HTTP method
names case-insensitively. -/
def parseMethod (s : String) : Option Method :=
  match lowerString s with
  | "get" => some Method.get
  | "put" => some Method.put
  | "post" => some Method.post
  | "delete" => some Method.delete
  | "options" => some Method.options
  | "head" => some Method.head
  | "trace" => some Method.trace
  | "connect" => some Method.connect
  | "patch" => some Method.patch
  | _ => none

/-- An error catcher: status code, default flag, and its handler capability,
which receives the request and returns the cookie jar it left behind together
with either a response or a failing status
(`catcher.handle(req) -> Result<Response, Status>`). -/
structure Catcher where
  code : Nat
  is_default : Bool
  handle : Request → Cookies × Except Status Response

/-- The catcher table, modelling the source's `HashMap<u16, Catcher>` by its
lookup function. -/
def CatcherMap : Type := Nat → Option Catcher

/-- `HashMap::insert` keyed by the catcher's code. -/
def CatcherMap.insert (m : CatcherMap) (c : Catcher) : CatcherMap :=
  fun k => if k = c.code then some c else m k

/-- Modelled from the spec: a default catcher: flagged `is_default`, and its
handler always succeeds (default catchers are defined to be infallible),
leaving the cookie jar unchanged. -/
def defaultCatcher (code : Nat) : Catcher :=
  { code := code
    is_default := true
    handle := fun req =>
      (req.cookies,
       Except.ok { status := ⟨code⟩, headers := [], body := some (Body.sized "default catcher body" 20) }) }

/-- Modelled from the spec: the codes of the seeded default catchers; the
fixed default set always contains at least 400, 404, 422 and the required
last-resort 500. -/
def defaultCodes : List Nat := [400, 404, 422, 500]

/-- Modelled from the spec: `catcher::defaults::get()`, the seeded table of
default catchers. -/
def catcherDefaults : CatcherMap :=
  fun code => if code ∈ defaultCodes then some (defaultCatcher code) else none

/-- A lifecycle hook (`Fairing`).  The on-attach hook is kept abstract as a
value of type `H` (its behaviour on the build pipeline is supplied separately
as an interpretation function, which breaks the type-level cycle between
fairings and the build state they mutate); the on-request and on-response
hooks are modelled directly, with the mutable access the source grants them
(`&mut Request` resp. `&mut Response`). -/
structure Fairing (H : Type) where
  attach_hook : H
  on_request : Request → Data → Request
  on_response : Request → Response → Response

/-- The finished configuration value (out of scope per the spec: consumed,
never inspected by the modelled code paths). -/
structure Config where
  environment : String

/-- The frozen snapshot (`Manifest`): configuration, route table, default and
active catcher tables, managed state (opaque list of type keys), and the
lifecycle-hook chain.  The shutdown channel fields of the source are
transport-side and not modelled. -/
structure Manifest (H : Type) where
  config : Config
  router : List Route
  default_catchers : CatcherMap
  catchers : CatcherMap
  state : List Nat
  fairings : List (Fairing H)

/-- The cookie-delta loop at the end of `Manifest::route_and_process`:
`for cookie in request.cookies().delta() { response.adjoin_header(cookie) }`. -/
def adjoinDelta (c : Cookies) (resp : Response) : Response :=
  c.delta.foldl (fun r ck => r.adjoin_header (cookieHeader ck)) resp

/-- The catcher-selection step of `Manifest::handle_error`:
`self.catchers.get(&status.code).unwrap_or_else(|| self.catchers.get(&500).expect(..))`,
with the `expect` panic surfaced as `none`. -/
def Manifest.lookupCatcher {H} (m : Manifest H) (code : Nat) : Option Catcher :=
  match m.catchers code with
  | some c => some c
  | none => m.catchers 500

/-- `Manifest::handle_error`: reset the cookie delta, select a catcher for
the status (falling back to the 500 catcher), invoke it, and on its failure
invoke the default 500 catcher.  `expect` panics become `none`. -/
def Manifest.handle_error {H} (m : Manifest H) (status : Status) (req : Request) :
    Option (Request × Response) :=
  let req1 := resetReq req
  match m.lookupCatcher status.code with
  | none => none
  | some catcher =>
    match catcher.handle req1 with
    | (c1, Except.ok r) => some ({ req1 with cookies := c1 }, r)
    | (c1, Except.error _) =>
      match m.default_catchers 500 with
      | none => none
      | some d =>
        match d.handle { req1 with cookies := c1 } with
        | (c2, Except.ok r) => some ({ req1 with cookies := c2 }, r)
        | (_, Except.error _) => none

/-- Specification-side restatement of the catcher-invocation tail of
`handle_error` (everything after the catcher has been selected), used to
state C2. -/
def invokeCatcher {H} (m : Manifest H) (catcher : Catcher) (r : Request) :
    Option (Request × Response) :=
  match catcher.handle r with
  | (c1, Except.ok resp) => some ({ r with cookies := c1 }, resp)
  | (c1, Except.error _) =>
    (m.default_catchers 500).bind (fun d =>
      match d.handle { r with cookies := c1 } with
      | (c2, Except.ok resp) => some ({ r with cookies := c2 }, resp)
      | (_, Except.error _) => none)

/-- `Manifest::preprocess_request`: rewrite the method when a POST form body's
peek prefix carries a `_method` override field.  The source inspects only
`data.peek()[..min(data_len, max_len)]` where `min_len = "_method=get".len()`
and `max_len = "_method=delete".len()`; the UTF-8 validity check of the
source always succeeds in this `String`-based model. -/
def Manifest.preprocess_request {H} (_m : Manifest H) (req : Request) (data : Data) : Request :=
  let data_len := data.peek.length
  let min_len := ("_method=get").length
  let max_len := ("_method=delete").length
  let is_form := req.contentTypeIsForm
  if is_form && req.method == Method.post && decide (data_len ≥ min_len) then
    let form := strTake data.peek (min data_len max_len)
    let method := ((formItems form).filter (fun item => item.1 == "_method")).head?.map
      (fun item => parseMethod item.2)
    match method with
    | some (some meth) => { req with method := meth }
    | _ => req
  else
    req

/-- Specification-side condition for the method rewrite, stated over the
truncated window the code actually inspects: the request is a form POST, the
peek holds at least `"_method=get".length` bytes, and the first `_method`
field of the first `min(peek length, 14)` bytes has a value parsing as a
method. -/
def methodOverride (req : Request) (data : Data) : Option Method :=
  if req.contentTypeIsForm && req.method == Method.post
      && decide (data.peek.length ≥ ("_method=get").length) then
    (((formItems (strTake data.peek (min data.peek.length ("_method=delete").length))).filter
        (fun item => item.1 == "_method")).head?).bind (fun item => parseMethod item.2)
  else
    none

/-- Claim-side condition of C8 as literally stated: the value of the first
`_method` field of the whole peek. -/
def peekOverrideValue (data : Data) : Option String :=
  (((formItems data.peek).filter (fun item => item.1 == "_method")).head?).map (fun item => item.2)

/-- The loop body of `Manifest::route`: try each candidate route in order;
success and failure outcomes return immediately, a forward outcome passes the
returned body on to the next candidate; an exhausted list forwards the data.
The handler sees the request with the current cookie jar; the matched-route
slot mutation (`request.set_route`) has no observable effect here and is not
modelled. -/
def routeGo (req : Request) : List Route → Cookies → Data → Cookies × Outcome
  | [], c, d => (c, Outcome.forward d)
  | route :: rest, c, d =>
    match route.handler { req with cookies := c } d with
    | (c', Outcome.forward d') => routeGo req rest c' d'
    | (c', o) => (c', o)

/-- The all-forward chain: `some (c', d')` exactly when every listed route's
handler forwards, threading cookies and data; used to state C1. -/
def forwardChain (req : Request) : List Route → Cookies → Data → Option (Cookies × Data)
  | [], c, d => some (c, d)
  | route :: rest, c, d =>
    match route.handler { req with cookies := c } d with
    | (c', Outcome.forward d') => forwardChain req rest c' d'
    | _ => none

/-- `Manifest::route`: run the routing loop over the router's candidate list. -/
def Manifest.route {H} (m : Manifest H) (req : Request) (d : Data) : Cookies × Outcome :=
  routeGo req (Router.route m.router req) req.cookies d

/-- `Manifest::route_and_process`, with the single HEAD re-dispatch made
explicit as a structural retry budget.  On a forward with method HEAD the
method is rewritten to GET and the whole step re-runs (the source's one
recursive call, which returns early so cookies are not set twice); otherwise
forwards become a 404 and failures go to `handle_error`, and in those
branches every pending cookie-delta entry is adjoined to the response. -/
def rapFuel {H} (m : Manifest H) : Nat → Request → Data → Option (Request × Response)
  | fuel, req, data =>
    match m.route req data with
    | (c, Outcome.success resp) =>
      some ({ req with cookies := c }, adjoinDelta c resp)
    | (c, Outcome.failure st) =>
      (m.handle_error st { req with cookies := c }).map
        (fun p => (p.1, adjoinDelta p.1.cookies p.2))
    | (c, Outcome.forward d') =>
      if req.method = Method.head then
        match fuel with
        | 0 => none
        | fuel' + 1 => rapFuel m fuel' { req with cookies := c, method := Method.get } d'
      else
        (m.handle_error Status.notFound { req with cookies := c }).map
          (fun p => (p.1, adjoinDelta p.1.cookies p.2))

/-- `Manifest::route_and_process`: the retry budget is 1 because the source
performs exactly one HEAD-to-GET re-dispatch (the rewritten request has
method GET, so the recursion cannot trigger again). -/
def Manifest.route_and_process {H} (m : Manifest H) (req : Request) (data : Data) :
    Option (Request × Response) :=
  rapFuel m 1 req data

/-- `self.fairings.handle_request(request, &data)`: run the on-request hooks
in registration order, each mutating the request. -/
def runRequestHooks {H} (m : Manifest H) (req : Request) (data : Data) : Request :=
  m.fairings.foldl (fun r f => f.on_request r data) req

/-- `self.fairings.handle_response(request, &mut response)`: run the
on-response hooks in registration order, each mutating the response. -/
def runResponseHooks {H} (m : Manifest H) (req : Request) (resp : Response) : Response :=
  m.fairings.foldl (fun r f => f.on_response req r) resp

/-- The default `Server: Rocket` header step of `Manifest::dispatch`. -/
def addServerHeader (resp : Response) : Response :=
  if containsHeader resp.headers "Server" then resp
  else resp.set_header ⟨"Server", "Rocket"⟩

/-- `Manifest::dispatch`: preprocess, run request hooks, record whether the
method is HEAD at that point, route and process, add the default Server
header, run response hooks, and strip the body when the recorded method was
HEAD. -/
def Manifest.dispatch {H} (m : Manifest H) (req : Request) (data : Data) :
    Option (Request × Response) :=
  let req1 := m.preprocess_request req data
  let req2 := runRequestHooks m req1 data
  let was_head := req2.method = Method.head
  match m.route_and_process req2 data with
  | none => none
  | some (req3, resp) =>
    let resp1 := addServerHeader resp
    let resp2 := runResponseHooks m req3 resp1
    some (req3, if was_head then resp2.strip_body else resp2)

/-- `BuildOperation`: the deferred build operations, tagged exactly as in the
source; `Manage` carries the opaque manifest-transforming closure. -/
inductive BuildOperation (H : Type) where
  | mount (base : String) (routes : List Route)
  | register (catchers : List Catcher)
  | manage (callback : Manifest H → Manifest H)
  | attach (fairing : Fairing H)

/-- The `Rocket` build state: the manifest plus the pending FIFO queue.  (The
source's `Option<Manifest>` is an ownership artifact of the take/replace
pattern; the manifest is always present at every observation point.) -/
structure Rocket (H : Type) where
  manifest : Manifest H
  pending : List (BuildOperation H)

/-- `Manifest::_mount`: resolve each route URI against the base and add it to
the route table.  Modelled from the spec: a route at `path` mounted at `base`
becomes available at `base/path`; URI-validity panics are out of scope. -/
def Manifest._mount {H} (m : Manifest H) (base : String) (routes : List Route) : Manifest H :=
  { m with router := m.router ++ routes.map (fun r => { r with base := base, uri := base ++ r.uri }) }

/-- `Manifest::_register`: insert every supplied catcher, overwriting any
existing entry for the same code (the duplicate case only logs a warning). -/
def Manifest._register {H} (m : Manifest H) (catchers : List Catcher) : Manifest H :=
  { m with catchers := catchers.foldl (fun acc c => acc.insert c) m.catchers }

/-- `Rocket::actualize_manifest`, with `Manifest::_attach` inlined (the two
are mutually recursive in the source) and a fuel bound on the number of
operations applied, since an attach hook may enqueue unboundedly many further
operations.  The loop pops the head operation (`self.pending.remove(0)`,
preserving FIFO order), applies it to the manifest, and continues until the
queue is empty.  For an attach, the hook runs against a fresh `Rocket` built
from the current manifest (with the fairing chain temporarily emptied), the
operations the hook enqueued are drained to completion by the inner recursive
actualization, and the fairing chains are then recombined, before the outer
loop proceeds with the operations that were queued after the attach. -/
def Rocket.actualize_manifest {H} (interp : H → Rocket H → Rocket H) :
    Nat → Rocket H → Option (Rocket H)
  | fuel, r =>
    match r.pending with
    | [] => some r
    | op :: rest =>
      match fuel with
      | 0 => none
      | fuel' + 1 =>
        match op with
        | BuildOperation.mount base routes =>
          Rocket.actualize_manifest interp fuel' ⟨Manifest._mount r.manifest base routes, rest⟩
        | BuildOperation.register cs =>
          Rocket.actualize_manifest interp fuel' ⟨Manifest._register r.manifest cs, rest⟩
        | BuildOperation.manage callback =>
          Rocket.actualize_manifest interp fuel' ⟨callback r.manifest, rest⟩
        | BuildOperation.attach fairing =>
          let old := r.manifest.fairings
          let inner := interp fairing.attach_hook ⟨{ r.manifest with fairings := [] }, []⟩
          match Rocket.actualize_manifest interp fuel' inner with
          | none => none
          | some ir =>
            Rocket.actualize_manifest interp fuel'
              ⟨{ ir.manifest with fairings := (old ++ [fairing]) ++ ir.manifest.fairings }, rest⟩

/-- `Rocket::configured`: the initial build state; both catcher tables are
seeded from the defaults, everything else starts empty.  (Logging and the
shutdown channel are out of scope.) -/
def Rocket.configured {H : Type} (config : Config) : Rocket H :=
  { manifest :=
      { config := config
        router := []
        default_catchers := catcherDefaults
        catchers := catcherDefaults
        state := []
        fairings := [] }
    pending := [] }

/-! ### Concrete fixtures

Closed instances used by witnesses and counterexamples.  The hook type is
instantiated at `Unit`; handlers, catchers and hooks are concrete closures. -/

/-- A sample configuration value. -/
def cfgW : Config := ⟨"development"⟩

/-- The empty cookie jar. -/
def emptyCookies : Cookies := ⟨[], []⟩

/-- Builds a concrete manifest over the `Unit` hook type. -/
def mkManifest (router : List Route) (catchers : CatcherMap) : Manifest Unit :=
  { config := cfgW
    router := router
    default_catchers := catcherDefaults
    catchers := catchers
    state := []
    fairings := [] }

/-- A 200 response with a sized body. -/
def respW1 : Response := ⟨⟨200⟩, [], some (Body.sized "hello" 5)⟩

/-- A route whose handler always forwards, leaving cookies and data alone. -/
def fwdRoute : Route := ⟨Method.get, "/", "/w", 0, fun r d => (r.cookies, Outcome.forward d)⟩

/-- A route whose handler always succeeds with `respW1`. -/
def succRoute : Route := ⟨Method.get, "/", "/w", 1, fun r _ => (r.cookies, Outcome.success respW1)⟩

/-- A GET request to `/w` with no cookies. -/
def reqW1 : Request := ⟨Method.get, "/w", false, emptyCookies⟩

/-- An empty body. -/
def dW : Data := ⟨"", ""⟩

/-- Manifest mounting the forwarding route ahead of the succeeding one. -/
def mW1 : Manifest Unit := mkManifest [fwdRoute, succRoute] catcherDefaults

/-- A 404 response body used by the user catcher below. -/
def respC404 : Response := ⟨⟨404⟩, [], some (Body.sized "not found" 9)⟩

/-- A user catcher for 404 that succeeds, leaving cookies alone. -/
def catcher404ok : Catcher := ⟨404, false, fun r => (r.cookies, Except.ok respC404)⟩

/-- A user catcher for 418 that itself fails with a 500 status. -/
def catcherFail : Catcher := ⟨418, false, fun r => (r.cookies, Except.error Status.internalServerError)⟩

/-- The response the modelled default catchers produce for code 500. -/
def default500Response : Response :=
  ⟨⟨500⟩, [], some (Body.sized "default catcher body" 20)⟩

/-- Catcher table holding `catcher404ok`, `catcherFail` and the default 500. -/
def catchersW2 : CatcherMap := fun code =>
  if code = 404 then some catcher404ok
  else if code = 418 then some catcherFail
  else if code = 500 then some (defaultCatcher 500) else none

/-- Manifest with the `catchersW2` table and no routes. -/
def mW2 : Manifest Unit := mkManifest [] catchersW2

/-- A request carrying a pending cookie-delta entry. -/
def reqW2 : Request := ⟨Method.get, "/nope", false, ⟨[], [⟨"a", "b"⟩]⟩⟩

/-- The cookie a failing handler sets. -/
def cookieSid : Cookie := ⟨"sid", "1"⟩

/-- The error response of the user's 500 catcher below. -/
def respErr : Response := ⟨⟨500⟩, [], some (Body.sized "oops" 4)⟩

/-- A route whose handler adds `cookieSid` to the delta and then fails. -/
def failRoute : Route :=
  ⟨Method.get, "/", "/f", 0,
   fun r _ => ({ r.cookies with delta := r.cookies.delta ++ [cookieSid] },
               Outcome.failure Status.internalServerError)⟩

/-- A user 500 catcher that succeeds without touching cookies. -/
def okCatcher500 : Catcher := ⟨500, false, fun r => (r.cookies, Except.ok respErr)⟩

/-- Manifest with the cookie-setting failing route and `okCatcher500`. -/
def mW3 : Manifest Unit :=
  mkManifest [failRoute] (fun code => if code = 500 then some okCatcher500 else none)

/-- A GET request to `/f` with no cookies. -/
def reqW3 : Request := ⟨Method.get, "/f", false, emptyCookies⟩

/-- A plain success response with no body. -/
def respOk : Response := ⟨⟨200⟩, [], none⟩

/-- A route whose handler adds `cookieSid` and succeeds. -/
def setSuccRoute : Route :=
  ⟨Method.get, "/", "/s", 0,
   fun r _ => ({ r.cookies with delta := r.cookies.delta ++ [cookieSid] },
               Outcome.success respOk)⟩

/-- Manifest with the cookie-setting succeeding route. -/
def mW3b : Manifest Unit := mkManifest [setSuccRoute] catcherDefaults

/-- A GET request to `/s` with no cookies. -/
def reqW3b : Request := ⟨Method.get, "/s", false, emptyCookies⟩

/-- Manifest with no routes at all (everything forwards). -/
def mW4 : Manifest Unit := mkManifest [] catcherDefaults

/-- A HEAD request to `/x`. -/
def reqW4 : Request := ⟨Method.head, "/x", false, emptyCookies⟩

/-- A GET request to `/x`. -/
def reqW4g : Request := ⟨Method.get, "/x", false, emptyCookies⟩

/-- A 200 response with a content-length header and a sized body. -/
def respOk2 : Response := ⟨⟨200⟩, [⟨"Content-Length", "2"⟩], some (Body.sized "ok" 2)⟩

/-- A GET route at `/h` succeeding with `respOk2`. -/
def getRouteH : Route := ⟨Method.get, "/", "/h", 0, fun r _ => (r.cookies, Outcome.success respOk2)⟩

/-- Manifest with only the GET route at `/h`. -/
def mW10 : Manifest Unit := mkManifest [getRouteH] catcherDefaults

/-- A HEAD request to `/h`. -/
def reqW10 : Request := ⟨Method.head, "/h", false, emptyCookies⟩

/-- A request hook that rewrites the method to GET (legitimate in the source:
on-request hooks receive `&mut Request` and `Request::set_method` is public). -/
def fairingSwap : Fairing Unit :=
  ⟨(), fun r _ => { r with method := Method.get }, fun _ resp => resp⟩

/-- Manifest whose only fairing is `fairingSwap`, with the GET route at `/h`. -/
def mC9 : Manifest Unit :=
  { config := cfgW
    router := [getRouteH]
    default_catchers := catcherDefaults
    catchers := catcherDefaults
    state := []
    fairings := [fairingSwap] }

/-- A HEAD request to `/h` (for the C9 counterexample). -/
def reqC9 : Request := ⟨Method.head, "/h", false, emptyCookies⟩

/-- Manifest with no routes and no fairings (for the C9 witness). -/
def mC9w : Manifest Unit := mkManifest [] catcherDefaults

/-- A HEAD request to `/p`. -/
def reqC9w : Request := ⟨Method.head, "/p", false, emptyCookies⟩

/-- Manifest for the C8 scenario (the routes and catchers are irrelevant to
preprocessing). -/
def mC8 : Manifest Unit := mkManifest [] catcherDefaults

/-- A POST form request. -/
def reqC8 : Request := ⟨Method.post, "/", true, emptyCookies⟩

/-- A body whose 15-byte peek is `_method=deletee`: the 14-byte window the
code inspects reads `_method=delete`, but the full field value is `deletee`. -/
def dataC8 : Data := ⟨"_method=deletee", ""⟩

/-- A user catcher registered during the build-pipeline witnesses. -/
def catcher418 : Catcher := ⟨418, false, fun r => (r.cookies, Except.ok ⟨⟨418⟩, [], none⟩)⟩

/-- An attach-hook interpretation under which every hook enqueues one
register operation (exercising re-entrant queue growth). -/
def interpW : Unit → Rocket Unit → Rocket Unit :=
  fun _ r => { r with pending := r.pending ++ [BuildOperation.register [catcher418]] }

/-- A fairing with the trivial hook value and identity request/response hooks. -/
def fairW : Fairing Unit := ⟨(), fun r _ => r, fun _ resp => resp⟩

/-- The freshly configured manifest. -/
def mW0 : Manifest Unit := (Rocket.configured (H := Unit) cfgW).manifest

/-- The drained build state after the attach hook's enqueued register
operation has been applied (fairing chain still emptied). -/
def irW : Rocket Unit :=
  ⟨{ mW0 with fairings := [], catchers := CatcherMap.insert mW0.catchers catcher418 }, []⟩

/-- The drained build state after registering `catcher418` on `mW0`. -/
def r1W : Rocket Unit :=
  ⟨{ mW0 with catchers := CatcherMap.insert mW0.catchers catcher418 }, []⟩

/-! ### Helper lemmas -/

theorem routeGo_cons_forward {req : Request} {r : Route} {rest : List Route}
    {c c' : Cookies} {d d' : Data}
    (h : r.handler { req with cookies := c } d = (c', Outcome.forward d')) :
    routeGo req (r :: rest) c d = routeGo req rest c' d' := by
  simp [routeGo, h]

theorem routeGo_cons_success {req : Request} {r : Route} {rest : List Route}
    {c c' : Cookies} {d : Data} {resp : Response}
    (h : r.handler { req with cookies := c } d = (c', Outcome.success resp)) :
    routeGo req (r :: rest) c d = (c', Outcome.success resp) := by
  simp [routeGo, h]

theorem routeGo_cons_failure {req : Request} {r : Route} {rest : List Route}
    {c c' : Cookies} {d : Data} {st : Status}
    (h : r.handler { req with cookies := c } d = (c', Outcome.failure st)) :
    routeGo req (r :: rest) c d = (c', Outcome.failure st) := by
  simp [routeGo, h]

theorem routeGo_append_chain {req : Request} :
    ∀ (pre : List Route) (c : Cookies) (d : Data) (c' : Cookies) (d' : Data),
      forwardChain req pre c d = some (c', d') →
      ∀ rest, routeGo req (pre ++ rest) c d = routeGo req rest c' d' := by
  intro pre
  induction pre with
  | nil =>
    intro c d c' d' h rest
    simp [forwardChain] at h
    obtain ⟨h1, h2⟩ := h
    subst h1
    subst h2
    rfl
  | cons r rs ih =>
    intro c d c' d' h rest
    cases hr : r.handler { req with cookies := c } d with
    | mk cx o =>
      cases o with
      | forward dx =>
        have h' : forwardChain req rs cx dx = some (c', d') := by
          simpa [forwardChain, hr] using h
        rw [List.cons_append, routeGo_cons_forward hr]
        exact ih cx dx c' d' h' rest
      | success resp => simp [forwardChain, hr] at h
      | failure st => simp [forwardChain, hr] at h

/-! ### Claim theorems -/

/-- Claim C1: the routing loop invokes the candidates in order: a prefix of
candidates that all forward threads the body through unchanged (witnessed by
`forwardChain`); the first candidate to return Success or Failure stops the
loop and its outcome is returned; and if every candidate forwards, the loop's
result is Forward carrying the last-forwarded (or original) data.  The third
conjunct ties the loop to `Manifest::route` over the router's candidate
list. -/
theorem route_loop_spec {H : Type} (m : Manifest H) (req : Request) :
    (∀ (pre : List Route) (r : Route) (post : List Route) (c : Cookies) (d : Data)
        (c' : Cookies) (d' : Data),
      forwardChain req pre c d = some (c', d') →
      (∀ resp c'', r.handler { req with cookies := c' } d' = (c'', Outcome.success resp) →
        routeGo req (pre ++ r :: post) c d = (c'', Outcome.success resp)) ∧
      (∀ st c'', r.handler { req with cookies := c' } d' = (c'', Outcome.failure st) →
        routeGo req (pre ++ r :: post) c d = (c'', Outcome.failure st))) ∧
    (∀ (hs : List Route) (c : Cookies) (d : Data) (c' : Cookies) (d' : Data),
      forwardChain req hs c d = some (c', d') →
      routeGo req hs c d = (c', Outcome.forward d')) ∧
    (∀ d : Data, m.route req d = routeGo req (Router.route m.router req) req.cookies d) := by
  refine ⟨?_, ?_, fun d => rfl⟩
  · intro pre r post c d c' d' hchain
    constructor
    · intro resp c'' hr
      rw [routeGo_append_chain pre c d c' d' hchain (r :: post)]
      exact routeGo_cons_success hr
    · intro st c'' hr
      rw [routeGo_append_chain pre c d c' d' hchain (r :: post)]
      exact routeGo_cons_failure hr
  · intro hs c d c' d' hchain
    have h := routeGo_append_chain hs c d c' d' hchain []
    rw [List.append_nil] at h
    rw [h]
    rfl

theorem route_loop_spec_witness :
    routeGo reqW1 [fwdRoute, succRoute] emptyCookies dW = (emptyCookies, Outcome.success respW1) ∧
    routeGo reqW1 [fwdRoute] emptyCookies dW = (emptyCookies, Outcome.forward dW) ∧
    Manifest.route mW1 reqW1 dW = (emptyCookies, Outcome.success respW1) :=
  ⟨((route_loop_spec mW1 reqW1).1 [fwdRoute] succRoute [] emptyCookies dW
      emptyCookies dW rfl).1 respW1 emptyCookies rfl,
   (route_loop_spec mW1 reqW1).2.1 [fwdRoute] emptyCookies dW emptyCookies dW rfl,
   by rw [(route_loop_spec mW1 reqW1).2.2 dW]; rfl⟩

theorem handle_error_invoke {H : Type} {m : Manifest H} {st : Status} {c : Catcher}
    (req : Request) (hl : m.lookupCatcher st.code = some c) :
    m.handle_error st req = invokeCatcher m c (resetReq req) := by
  simp only [Manifest.handle_error, hl]
  cases hch : c.handle (resetReq req) with
  | mk c1 e =>
    cases e with
    | ok r => simp [invokeCatcher, hch]
    | error s =>
      cases hd : m.default_catchers 500 with
      | none => simp [invokeCatcher, hch, hd]
      | some dcat =>
        cases hdh : dcat.handle { resetReq req with cookies := c1 } with
        | mk c2 e2 => cases e2 <;> simp [invokeCatcher, hch, hd, hdh]

/-- Claim C2: error handling selects the catcher registered for exactly the
status code when present; otherwise it falls back to the (user-registered or
default) 500 entry of the active table; and when the selected catcher itself
returns an error status, the default, non-user-overridable 500 catcher is
invoked and its response is returned. -/
theorem handle_error_spec {H : Type} (m : Manifest H) (st : Status) (req : Request) :
    (∀ c, m.catchers st.code = some c →
      m.handle_error st req = invokeCatcher m c (resetReq req)) ∧
    (m.catchers st.code = none →
      m.handle_error st req = (m.catchers 500).bind (fun c => invokeCatcher m c (resetReq req))) ∧
    (∀ (c : Catcher) (c1 : Cookies) (est : Status) (dc : Catcher) (c2 : Cookies) (resp : Response),
      m.lookupCatcher st.code = some c →
      c.handle (resetReq req) = (c1, Except.error est) →
      m.default_catchers 500 = some dc →
      dc.handle { resetReq req with cookies := c1 } = (c2, Except.ok resp) →
      m.handle_error st req = some ({ resetReq req with cookies := c2 }, resp)) := by
  refine ⟨?_, ?_, ?_⟩
  · intro c hc
    exact handle_error_invoke req (by simp [Manifest.lookupCatcher, hc])
  · intro hc
    cases h5 : m.catchers 500 with
    | none =>
      have hl : m.lookupCatcher st.code = none := by simp [Manifest.lookupCatcher, hc, h5]
      simp [Manifest.handle_error, hl]
    | some c =>
      have hl : m.lookupCatcher st.code = some c := by simp [Manifest.lookupCatcher, hc, h5]
      rw [handle_error_invoke req hl]
      rfl
  · intro c c1 est dc c2 resp hl hch hd hdh
    rw [handle_error_invoke req hl]
    simp [invokeCatcher, hch, hd, hdh]

theorem handle_error_spec_witness :
    Manifest.handle_error mW2 ⟨404⟩ reqW2 = invokeCatcher mW2 catcher404ok (resetReq reqW2) ∧
    Manifest.handle_error mW2 ⟨999⟩ reqW2 =
      (mW2.catchers 500).bind (fun c => invokeCatcher mW2 c (resetReq reqW2)) ∧
    Manifest.handle_error mW2 ⟨418⟩ reqW2 = some (resetReq reqW2, default500Response) :=
  ⟨(handle_error_spec mW2 ⟨404⟩ reqW2).1 catcher404ok rfl,
   (handle_error_spec mW2 ⟨999⟩ reqW2).2.1 rfl,
   (handle_error_spec mW2 ⟨418⟩ reqW2).2.2 catcherFail (resetReq reqW2).cookies
     Status.internalServerError (defaultCatcher 500) (resetReq reqW2).cookies
     default500Response rfl rfl rfl rfl⟩

theorem foldl_adjoin_headers (l : List Cookie) :
    ∀ resp : Response,
      (l.foldl (fun r ck => r.adjoin_header (cookieHeader ck)) resp).headers =
        resp.headers ++ l.map cookieHeader := by
  induction l with
  | nil => intro resp; simp
  | cons ck rest ih =>
    intro resp
    rw [List.foldl_cons, ih]
    simp [Response.adjoin_header]

theorem adjoinDelta_headers (c : Cookies) (resp : Response) :
    (adjoinDelta c resp).headers = resp.headers ++ c.delta.map cookieHeader :=
  foldl_adjoin_headers c.delta resp

theorem rapFuel_not_head {H : Type} (m : Manifest H) (req : Request) (d : Data)
    (h : ¬ req.method = Method.head) (n k : Nat) :
    rapFuel m n req d = rapFuel m k req d := by
  cases hr : m.route req d with
  | mk c o => cases o <;> simp [rapFuel, hr, h]

/-- Claim C3: the cookie delta is reset to base before any error catcher is
invoked — so when a handler adds a cookie and then fails, and the invoked
catcher leaves the (reset) jar as it received it, the final error response is
exactly the catcher's response and carries none of the handler's delta
cookies; while on a Success path every pending delta entry is adjoined to the
response as a header, so a succeeding handler's cookie is present. -/
theorem cookie_isolation_spec {H : Type} (m : Manifest H) (req : Request) (d : Data) :
    (∀ (c : Cookies) (st : Status) (cat : Catcher) (resp : Response),
      m.route req d = (c, Outcome.failure st) →
      m.lookupCatcher st.code = some cat →
      cat.handle (resetReq { req with cookies := c }) =
        ((resetReq { req with cookies := c }).cookies, Except.ok resp) →
      m.route_and_process req d = some (resetReq { req with cookies := c }, resp) ∧
      ∀ ck : Cookie, ck ∈ c.delta → cookieHeader ck ∉ resp.headers →
        ∀ p, m.route_and_process req d = some p → cookieHeader ck ∉ p.2.headers) ∧
    (∀ (c : Cookies) (resp : Response),
      m.route req d = (c, Outcome.success resp) →
      m.route_and_process req d = some ({ req with cookies := c }, adjoinDelta c resp) ∧
      ∀ ck ∈ c.delta, cookieHeader ck ∈ (adjoinDelta c resp).headers) := by
  constructor
  · intro c st cat resp hroute hcat hch
    have hmain : m.route_and_process req d = some (resetReq { req with cookies := c }, resp) := by
      show rapFuel m 1 req d = _
      simp only [rapFuel, hroute]
      rw [handle_error_invoke { req with cookies := c } hcat]
      simp only [invokeCatcher]
      rw [hch]
      rfl
    refine ⟨hmain, ?_⟩
    intro ck _hmem hnot p hp
    rw [hmain] at hp
    cases hp
    exact hnot
  · intro c resp hroute
    constructor
    · show rapFuel m 1 req d = _
      simp only [rapFuel, hroute]
    · intro ck hmem
      rw [adjoinDelta_headers]
      exact List.mem_append_right _ (List.mem_map_of_mem cookieHeader hmem)

theorem cookie_isolation_witness :
    Manifest.route_and_process mW3 reqW3 dW = some (reqW3, respErr) ∧
    Manifest.route_and_process mW3b reqW3b dW =
      some ({ reqW3b with cookies := ⟨[], [cookieSid]⟩ }, adjoinDelta ⟨[], [cookieSid]⟩ respOk) ∧
    cookieHeader cookieSid ∈ (adjoinDelta ⟨[], [cookieSid]⟩ respOk).headers :=
  ⟨((cookie_isolation_spec mW3 reqW3 dW).1 ⟨[], [cookieSid]⟩ Status.internalServerError
      okCatcher500 respErr rfl rfl rfl).1,
   ((cookie_isolation_spec mW3b reqW3b dW).2 ⟨[], [cookieSid]⟩ respOk rfl).1,
   ((cookie_isolation_spec mW3b reqW3b dW).2 ⟨[], [cookieSid]⟩ respOk rfl).2 cookieSid
     (by decide)⟩

/-- Claim C4: when routing produces Forward, a request whose current method is
HEAD has its method rewritten to GET and the routing-and-processing step is
retried (the source's single re-dispatch); the rewritten request's method is
GET, so it can never trigger a second rewrite; and when the method is not
HEAD (in particular for the rewritten request when the GET retry also
forwards), error handling is invoked with status 404. -/
theorem head_autohandle_spec {H : Type} (m : Manifest H) (req : Request) (d : Data)
    (c : Cookies) (d' : Data)
    (hroute : m.route req d = (c, Outcome.forward d')) :
    (req.method = Method.head →
      m.route_and_process req d =
        m.route_and_process { req with cookies := c, method := Method.get } d') ∧
    (¬ req.method = Method.head →
      m.route_and_process req d =
        (m.handle_error Status.notFound { req with cookies := c }).map
          (fun p => (p.1, adjoinDelta p.1.cookies p.2))) ∧
    ({ req with cookies := c, method := Method.get }).method ≠ Method.head := by
  refine ⟨?_, ?_, ?_⟩
  · intro hh
    show rapFuel m 1 req d = rapFuel m 1 { req with cookies := c, method := Method.get } d'
    rw [rapFuel]
    simp only [hroute]
    rw [if_pos hh]
    exact rapFuel_not_head m { req with cookies := c, method := Method.get } d'
      (fun h => Method.noConfusion h) 0 1
  · intro hh
    show rapFuel m 1 req d = _
    simp only [rapFuel, hroute]
    simp [hh]
  · intro h
    exact Method.noConfusion h

theorem head_autohandle_witness :
    Manifest.route_and_process mW4 reqW4 dW =
      Manifest.route_and_process mW4 { reqW4 with cookies := emptyCookies, method := Method.get } dW ∧
    Manifest.route_and_process mW4 reqW4g dW =
      (Manifest.handle_error mW4 Status.notFound { reqW4g with cookies := emptyCookies }).map
        (fun p => (p.1, adjoinDelta p.1.cookies p.2)) :=
  ⟨(head_autohandle_spec mW4 reqW4 dW emptyCookies dW rfl).1 rfl,
   (head_autohandle_spec mW4 reqW4g dW emptyCookies dW rfl).2.1 (by decide)⟩

/-- Claim C10: delta cookies are appended to the response exactly once per
dispatch.  On the HEAD auto-handling path `route_and_process` returns the
recursive call's result early, before its own cookie loop: when the GET retry
succeeds, the final result is the retry's response with the final cookie
delta adjoined a single time. -/
theorem cookie_append_once {H : Type} (m : Manifest H) (req : Request) (d d' : Data)
    (c c2 : Cookies) (resp : Response)
    (hh : req.method = Method.head)
    (h1 : m.route req d = (c, Outcome.forward d'))
    (h2 : m.route { req with cookies := c, method := Method.get } d' = (c2, Outcome.success resp)) :
    m.route_and_process req d =
      some ({ req with cookies := c2, method := Method.get }, adjoinDelta c2 resp) := by
  show rapFuel m 1 req d = _
  simp only [rapFuel, h1]
  simp only [hh, if_true]
  simp only [rapFuel, h2]

theorem cookie_append_once_witness :
    Manifest.route_and_process mW10 reqW10 dW =
      some ({ reqW10 with method := Method.get }, respOk2) :=
  cookie_append_once mW10 reqW10 dW dW emptyCookies emptyCookies respOk2 rfl rfl rfl

/-- Counterexample to claim C8 as stated: for the form POST whose 15-byte
peek is `_method=deletee`, the peek's `_method` field has value `deletee`,
which does not parse as an HTTP method — so by the claim the method must be
left unchanged — yet preprocessing rewrites the method to DELETE, because the
code inspects only the first `min(peek length, 14)` bytes, where the field
reads `_method=delete`. -/
theorem preprocess_truncation_cex :
    reqC8.contentTypeIsForm = true ∧ reqC8.method = Method.post ∧
    peekOverrideValue dataC8 = some "deletee" ∧ parseMethod "deletee" = none ∧
    Manifest.preprocess_request mC8 reqC8 dataC8 = { reqC8 with method := Method.delete } :=
  ⟨rfl, rfl, by decide, by decide, by decide⟩

/-- Claim C8 (amended): preprocessing rewrites the method if and only if the
content type is a form, the method is POST, the peek holds at least
`"_method=get".length` bytes, and the first `_method` field of the first
`min(peek length, "_method=delete".length)` bytes of the peek has a value
that parses as an HTTP method (`methodOverride`); and in every case the
request is changed in the method field at most — in particular the body is
never touched (preprocessing is a pure function of the already-buffered peek;
the stream is never consumed). -/
theorem preprocess_spec {H : Type} (m : Manifest H) (req : Request) (data : Data) :
    m.preprocess_request req data =
      (match methodOverride req data with
       | some meth => { req with method := meth }
       | none => req) ∧
    { m.preprocess_request req data with method := req.method } = req := by
  have hmain : m.preprocess_request req data =
      (match methodOverride req data with
       | some meth => { req with method := meth }
       | none => req) := by
    unfold Manifest.preprocess_request methodOverride
    by_cases hg : (req.contentTypeIsForm && req.method == Method.post &&
        decide (data.peek.length ≥ ("_method=get").length)) = true
    · rw [if_pos hg, if_pos hg]
      cases hh : ((formItems (strTake data.peek
          (min data.peek.length ("_method=delete").length))).filter
            (fun item => item.1 == "_method")).head? with
      | none => simp [hh]
      | some item =>
        cases hp : parseMethod item.2 with
        | none => simp [hh, hp]
        | some meth => simp [hh, hp]
    · rw [if_neg hg, if_neg hg]
  refine ⟨hmain, ?_⟩
  rw [hmain]
  cases methodOverride req data with
  | none => rfl
  | some meth => rfl

theorem containsHeader_strip (resp : Response) :
    (Response.strip_body resp).headers = resp.headers := rfl

/-- Counterexample to claim C9 as stated: the inbound request `reqC9` has
method HEAD, but an on-request hook (which in the source holds `&mut Request`
and may call the public `Request::set_method`) rewrites the method to GET
before the dispatcher records it, so the final response keeps its body
instead of being stripped. -/
theorem head_strip_cex :
    reqC9.method = Method.head ∧
    (Manifest.dispatch mC9 reqC9 dW).map (fun p => p.2.body) =
      some (some (Body.sized "ok" 2)) :=
  ⟨rfl, by decide⟩

/-- Claim C9 (amended): for every request whose method, as recorded by the
dispatcher after preprocessing and the request hooks (before routing, hence
before any HEAD-to-GET rewrite), is HEAD, the dispatch result is the
routed response — after the default Server header step and the response
hooks — with the body stripped; and stripping preserves the status and every
header (in particular any content-length) while removing the body. -/
theorem head_strip_spec {H : Type} (m : Manifest H) (req req2 : Request) (data : Data)
    (h2 : runRequestHooks m (m.preprocess_request req data) data = req2)
    (hh : req2.method = Method.head) :
    m.dispatch req data =
      (m.route_and_process req2 data).map
        (fun p => (p.1, (runResponseHooks m p.1 (addServerHeader p.2)).strip_body)) ∧
    (∀ r : Response, (Response.strip_body r).status = r.status ∧
      (Response.strip_body r).headers = r.headers ∧ (Response.strip_body r).body = none) := by
  refine ⟨?_, fun r => ⟨rfl, rfl, rfl⟩⟩
  simp only [Manifest.dispatch]
  rw [h2]
  simp only [hh, if_true]
  cases hrp : m.route_and_process req2 data with
  | none => rfl
  | some p =>
    cases p with
    | mk req3 resp =>
      simp [runResponseHooks, addServerHeader]

theorem head_strip_spec_witness :
    Manifest.dispatch mC9w reqC9w dW =
      (Manifest.route_and_process mC9w reqC9w dW).map
        (fun p => (p.1, (runResponseHooks mC9w p.1 (addServerHeader p.2)).strip_body)) :=
  (head_strip_spec mC9w reqC9w reqC9w dW rfl rfl).1

theorem actualize_nil {H : Type} (interp : H → Rocket H → Rocket H) (fuel : Nat)
    (m : Manifest H) :
    Rocket.actualize_manifest interp fuel ⟨m, []⟩ = some ⟨m, []⟩ := by
  cases fuel <;> rfl

theorem actualize_zero_cons {H : Type} (interp : H → Rocket H → Rocket H)
    (m : Manifest H) (op : BuildOperation H) (rest : List (BuildOperation H)) :
    Rocket.actualize_manifest interp 0 ⟨m, op :: rest⟩ = none := rfl

theorem actualize_cons_mount {H : Type} (interp : H → Rocket H → Rocket H) (f : Nat)
    (m : Manifest H) (base : String) (routes : List Route) (rest : List (BuildOperation H)) :
    Rocket.actualize_manifest interp (f + 1) ⟨m, BuildOperation.mount base routes :: rest⟩ =
      Rocket.actualize_manifest interp f ⟨Manifest._mount m base routes, rest⟩ := rfl

theorem actualize_cons_register {H : Type} (interp : H → Rocket H → Rocket H) (f : Nat)
    (m : Manifest H) (cs : List Catcher) (rest : List (BuildOperation H)) :
    Rocket.actualize_manifest interp (f + 1) ⟨m, BuildOperation.register cs :: rest⟩ =
      Rocket.actualize_manifest interp f ⟨Manifest._register m cs, rest⟩ := rfl

theorem actualize_cons_manage {H : Type} (interp : H → Rocket H → Rocket H) (f : Nat)
    (m : Manifest H) (cb : Manifest H → Manifest H) (rest : List (BuildOperation H)) :
    Rocket.actualize_manifest interp (f + 1) ⟨m, BuildOperation.manage cb :: rest⟩ =
      Rocket.actualize_manifest interp f ⟨cb m, rest⟩ := rfl

theorem actualize_cons_attach {H : Type} (interp : H → Rocket H → Rocket H) (f : Nat)
    (m : Manifest H) (fair : Fairing H) (rest : List (BuildOperation H)) :
    Rocket.actualize_manifest interp (f + 1) ⟨m, BuildOperation.attach fair :: rest⟩ =
      (match Rocket.actualize_manifest interp f
          (interp fair.attach_hook ⟨{ m with fairings := [] }, []⟩) with
       | none => none
       | some ir =>
         Rocket.actualize_manifest interp f
           ⟨{ ir.manifest with fairings := (m.fairings ++ [fair]) ++ ir.manifest.fairings },
            rest⟩) := rfl

theorem actualize_mono {H : Type} (interp : H → Rocket H → Rocket H) :
    ∀ (f : Nat) (r r' : Rocket H), Rocket.actualize_manifest interp f r = some r' →
      ∀ g, f ≤ g → Rocket.actualize_manifest interp g r = some r' := by
  intro f
  induction f with
  | zero =>
    intro r r' h g _
    obtain ⟨m, pend⟩ := r
    cases pend with
    | nil =>
      rw [actualize_nil] at h
      rw [actualize_nil]
      exact h
    | cons op rest =>
      rw [actualize_zero_cons] at h
      exact Option.noConfusion h
  | succ f ih =>
    intro r r' h g hg
    obtain ⟨m, pend⟩ := r
    cases pend with
    | nil =>
      rw [actualize_nil] at h
      rw [actualize_nil]
      exact h
    | cons op rest =>
      obtain ⟨g', rfl⟩ : ∃ g', g = g' + 1 := ⟨g - 1, by omega⟩
      have hfg : f ≤ g' := by omega
      cases op with
      | mount base routes =>
        rw [actualize_cons_mount] at h
        rw [actualize_cons_mount]
        exact ih _ _ h g' hfg
      | register cs =>
        rw [actualize_cons_register] at h
        rw [actualize_cons_register]
        exact ih _ _ h g' hfg
      | manage cb =>
        rw [actualize_cons_manage] at h
        rw [actualize_cons_manage]
        exact ih _ _ h g' hfg
      | attach fair =>
        rw [actualize_cons_attach] at h
        rw [actualize_cons_attach]
        cases hi : Rocket.actualize_manifest interp f
            (interp fair.attach_hook ⟨{ m with fairings := [] }, []⟩) with
        | none =>
          simp only [hi] at h
          exact Option.noConfusion h
        | some ir =>
          simp only [hi] at h
          simp only [ih _ _ hi g' hfg]
          exact ih _ _ h g' hfg

theorem actualize_pending_empty {H : Type} (interp : H → Rocket H → Rocket H) :
    ∀ (f : Nat) (r r' : Rocket H),
      Rocket.actualize_manifest interp f r = some r' → r'.pending = [] := by
  intro f
  induction f with
  | zero =>
    intro r r' h
    obtain ⟨m, pend⟩ := r
    cases pend with
    | nil =>
      rw [actualize_nil] at h
      injection h with h'
      subst h'
      rfl
    | cons op rest =>
      rw [actualize_zero_cons] at h
      exact Option.noConfusion h
  | succ f ih =>
    intro r r' h
    obtain ⟨m, pend⟩ := r
    cases pend with
    | nil =>
      rw [actualize_nil] at h
      injection h with h'
      subst h'
      rfl
    | cons op rest =>
      cases op with
      | mount base routes =>
        rw [actualize_cons_mount] at h
        exact ih _ _ h
      | register cs =>
        rw [actualize_cons_register] at h
        exact ih _ _ h
      | manage cb =>
        rw [actualize_cons_manage] at h
        exact ih _ _ h
      | attach fair =>
        rw [actualize_cons_attach] at h
        cases hi : Rocket.actualize_manifest interp f
            (interp fair.attach_hook ⟨{ m with fairings := [] }, []⟩) with
        | none =>
          simp only [hi] at h
          exact Option.noConfusion h
        | some ir =>
          simp only [hi] at h
          exact ih _ _ h

theorem actualize_append {H : Type} (interp : H → Rocket H → Rocket H) :
    ∀ (f1 : Nat) (m : Manifest H) (ops1 : List (BuildOperation H)) (r1 : Rocket H),
      Rocket.actualize_manifest interp f1 ⟨m, ops1⟩ = some r1 →
      ∀ (f2 : Nat) (ops2 : List (BuildOperation H)) (r2 : Rocket H),
        Rocket.actualize_manifest interp f2 ⟨r1.manifest, ops2⟩ = some r2 →
        Rocket.actualize_manifest interp (f1 + f2) ⟨m, ops1 ++ ops2⟩ = some r2 := by
  intro f1
  induction f1 with
  | zero =>
    intro m ops1 r1 h1 f2 ops2 r2 h2
    cases ops1 with
    | nil =>
      rw [actualize_nil] at h1
      injection h1 with h1'
      subst h1'
      simpa using h2
    | cons op rest =>
      rw [actualize_zero_cons] at h1
      exact Option.noConfusion h1
  | succ f ih =>
    intro m ops1 r1 h1 f2 ops2 r2 h2
    cases ops1 with
    | nil =>
      rw [actualize_nil] at h1
      injection h1 with h1'
      subst h1'
      exact actualize_mono interp f2 _ r2 (by simpa using h2) (f + 1 + f2) (by omega)
    | cons op rest =>
      have hsucc : f + 1 + f2 = (f + f2) + 1 := by omega
      rw [hsucc, List.cons_append]
      cases op with
      | mount base routes =>
        rw [actualize_cons_mount] at h1
        rw [actualize_cons_mount]
        exact ih _ rest r1 h1 f2 ops2 r2 h2
      | register cs =>
        rw [actualize_cons_register] at h1
        rw [actualize_cons_register]
        exact ih _ rest r1 h1 f2 ops2 r2 h2
      | manage cb =>
        rw [actualize_cons_manage] at h1
        rw [actualize_cons_manage]
        exact ih _ rest r1 h1 f2 ops2 r2 h2
      | attach fair =>
        rw [actualize_cons_attach] at h1
        rw [actualize_cons_attach]
        cases hi : Rocket.actualize_manifest interp f
            (interp fair.attach_hook ⟨{ m with fairings := [] }, []⟩) with
        | none =>
          simp only [hi] at h1
          exact Option.noConfusion h1
        | some ir =>
          simp only [hi] at h1
          simp only [actualize_mono interp f _ ir hi (f + f2) (by omega)]
          exact ih _ rest r1 h1 f2 ops2 r2 h2

/-- Claim C5: actualization consumes the pending queue strictly in FIFO
order — draining a queue prefix to completion and then the suffix from the
resulting manifest is the same as draining their concatenation (given enough
fuel for each part) — a pipeline counts as actualized only with an empty
queue (every successful actualization ends with no pending operations), and
an Attach at the head first runs the hook on a fresh build state, fully
drains whatever operations the hook enqueued (including re-entrant growth,
via the inner actualization), recombines the fairing chains, and only then
proceeds to the operations that were already queued after the Attach. -/
theorem actualize_fifo_spec {H : Type} (interp : H → Rocket H → Rocket H) :
    (∀ (f1 : Nat) (m : Manifest H) (ops1 : List (BuildOperation H)) (r1 : Rocket H)
        (f2 : Nat) (ops2 : List (BuildOperation H)) (r2 : Rocket H),
      Rocket.actualize_manifest interp f1 ⟨m, ops1⟩ = some r1 →
      Rocket.actualize_manifest interp f2 ⟨r1.manifest, ops2⟩ = some r2 →
      Rocket.actualize_manifest interp (f1 + f2) ⟨m, ops1 ++ ops2⟩ = some r2) ∧
    (∀ (f : Nat) (r r' : Rocket H),
      Rocket.actualize_manifest interp f r = some r' → r'.pending = []) ∧
    (∀ (g : Nat) (m : Manifest H) (fair : Fairing H) (rest : List (BuildOperation H))
        (ir : Rocket H),
      Rocket.actualize_manifest interp g
        (interp fair.attach_hook ⟨{ m with fairings := [] }, []⟩) = some ir →
      Rocket.actualize_manifest interp (g + 1) ⟨m, BuildOperation.attach fair :: rest⟩ =
        Rocket.actualize_manifest interp g
          ⟨{ ir.manifest with fairings := (m.fairings ++ [fair]) ++ ir.manifest.fairings },
           rest⟩) := by
  refine ⟨?_, actualize_pending_empty interp, ?_⟩
  · intro f1 m ops1 r1 f2 ops2 r2 h1 h2
    exact actualize_append interp f1 m ops1 r1 h1 f2 ops2 r2 h2
  · intro g m fair rest ir hi
    rw [actualize_cons_attach]
    simp only [hi]

theorem actualize_fifo_witness :
    Rocket.actualize_manifest interpW 2
        ⟨mW0, [BuildOperation.register [catcher418], BuildOperation.mount "/a" []]⟩ =
      some ⟨Manifest._mount r1W.manifest "/a" [], []⟩ ∧
    r1W.pending = [] ∧
    Rocket.actualize_manifest interpW 2 ⟨mW0, [BuildOperation.attach fairW]⟩ =
      Rocket.actualize_manifest interpW 1
        ⟨{ irW.manifest with fairings := (mW0.fairings ++ [fairW]) ++ irW.manifest.fairings },
         []⟩ :=
  ⟨(actualize_fifo_spec interpW).1 1 mW0 [BuildOperation.register [catcher418]] r1W
     1 [BuildOperation.mount "/a" []] ⟨Manifest._mount r1W.manifest "/a" [], []⟩ rfl rfl,
   (actualize_fifo_spec interpW).2.1 1 ⟨mW0, [BuildOperation.register [catcher418]]⟩ r1W rfl,
   (actualize_fifo_spec interpW).2.2 1 mW0 fairW [] irW rfl⟩

/-- Claim C6: actualizing an already-drained pipeline is a no-op — with an
empty pending queue, actualization returns the build state unchanged for any
fuel, with no error — and hence actualizing a second time after any
successful actualization returns the same state unchanged. -/
theorem actualize_noop_spec {H : Type} (interp : H → Rocket H → Rocket H) :
    (∀ (fuel : Nat) (m : Manifest H),
      Rocket.actualize_manifest interp fuel ⟨m, []⟩ = some ⟨m, []⟩) ∧
    (∀ (f f2 : Nat) (r r' : Rocket H),
      Rocket.actualize_manifest interp f r = some r' →
      Rocket.actualize_manifest interp f2 r' = some r') := by
  constructor
  · intro fuel m
    exact actualize_nil interp fuel m
  · intro f f2 r r' h
    have hp := actualize_pending_empty interp f r r' h
    obtain ⟨m', pend⟩ := r'
    simp only at hp
    subst hp
    exact actualize_nil interp f2 m'

theorem actualize_noop_witness :
    Rocket.actualize_manifest interpW 0 r1W = some r1W ∧
    Rocket.actualize_manifest interpW 3 ⟨mW0, []⟩ = some ⟨mW0, []⟩ :=
  ⟨(actualize_noop_spec interpW).2 1 0 ⟨mW0, [BuildOperation.register [catcher418]]⟩ r1W rfl,
   (actualize_noop_spec interpW).1 3 mW0⟩

theorem foldl_insert_preserves_500 :
    ∀ (cs : List Catcher) (mm : CatcherMap), (mm 500).isSome = true →
      ((cs.foldl (fun acc c => acc.insert c) mm) 500).isSome = true := by
  intro cs
  induction cs with
  | nil => exact fun mm h => h
  | cons c rest ih =>
    intro mm h
    rw [List.foldl_cons]
    apply ih
    unfold CatcherMap.insert
    by_cases h5 : (500 : Nat) = c.code <;> simp [h5, h]

/-- Claim C7: the catcher table contains an entry for status 500 at
construction (both tables are seeded from the defaults, which include 500);
catcher registration only inserts or overwrites, so it preserves the
presence of the 500 entry; and whenever the 500 entry is present, the
catcher selection performed during error handling (exact code, else the 500
fallback) cannot fail. -/
theorem default_catcher_invariant {H : Type} :
    (∀ cfg : Config, ((Rocket.configured (H := H) cfg).manifest.catchers 500).isSome = true) ∧
    (∀ (m : Manifest H) (cs : List Catcher), (m.catchers 500).isSome = true →
      ((Manifest._register m cs).catchers 500).isSome = true) ∧
    (∀ (m : Manifest H) (code : Nat), (m.catchers 500).isSome = true →
      (m.lookupCatcher code).isSome = true) := by
  refine ⟨fun cfg => rfl, ?_, ?_⟩
  · intro m cs h
    exact foldl_insert_preserves_500 cs m.catchers h
  · intro m code h
    unfold Manifest.lookupCatcher
    cases hm : m.catchers code with
    | some c => rfl
    | none => exact h

theorem default_catcher_invariant_witness :
    ((Rocket.configured (H := Unit) cfgW).manifest.catchers 500).isSome = true ∧
    ((Manifest._register mW0 [catcher418]).catchers 500).isSome = true ∧
    (Manifest.lookupCatcher mW0 999).isSome = true :=
  ⟨(default_catcher_invariant (H := Unit)).1 cfgW,
   (default_catcher_invariant (H := Unit)).2.1 mW0 [catcher418] rfl,
   (default_catcher_invariant (H := Unit)).2.2 mW0 999 rfl⟩

end RocketCore
